import Mathlib

/-!
Shallow embedding of `src/main.py` of the alpaca-bridge repository:
an HTTP bridge exposing Alpaca REST bars and a SIP-websocket tick cache.
-/

namespace AlpacaBridge

/-! ## Python string helpers, modelled for ASCII symbol strings -/

/-- Python `str.upper` on one ASCII character: `'a'..'z'` map 32 down. -/
def pyUpperChar (c : Char) : Char :=
  if c.isLower then Char.ofNat (c.toNat - 32) else c

/-- Python `str.upper` on a string (ASCII model). -/
def pyUpper (s : String) : String := ⟨s.data.map pyUpperChar⟩

theorem lower_bounds {c : Char} (h : c.isLower = true) :
    97 ≤ c.toNat ∧ c.toNat ≤ 122 := by
  simp only [Char.isLower, Bool.and_eq_true, decide_eq_true_eq] at h
  exact ⟨h.1, h.2⟩

theorem toNat_ofNat_valid {n : Nat} (h : Nat.isValidChar n) :
    (Char.ofNat n).toNat = n := by
  simp only [Char.ofNat, dif_pos h]
  rfl

theorem pyUpperChar_idem (c : Char) : pyUpperChar (pyUpperChar c) = pyUpperChar c := by
  unfold pyUpperChar
  by_cases h : c.isLower
  · simp only [h, if_true]
    have hlow := lower_bounds h
    have hvalid : Nat.isValidChar (c.toNat - 32) := by
      left
      omega
    have hval : (Char.ofNat (c.toNat - 32)).toNat = c.toNat - 32 :=
      toNat_ofNat_valid hvalid
    have hnotlow : ¬ (Char.ofNat (c.toNat - 32)).isLower = true := by
      intro hc
      have := lower_bounds hc
      omega
    simp [hnotlow]
  · simp [h]

theorem pyUpper_idem (s : String) : pyUpper (pyUpper s) = pyUpper s := by
  unfold pyUpper
  simp only [List.map_map]
  congr 1
  apply List.map_congr_left
  intro c _
  exact pyUpperChar_idem c

/-- Python `str.lower` on one ASCII character. -/
def pyLowerChar (c : Char) : Char :=
  if c.isUpper then Char.ofNat (c.toNat + 32) else c

/-- Python `str.lower` on a string (ASCII model). -/
def pyLower (s : String) : String := ⟨s.data.map pyLowerChar⟩

/-- Python `str.strip()`: drop leading and trailing whitespace. -/
def pyStrip (s : String) : String :=
  ⟨((s.data.dropWhile Char.isWhitespace).reverse.dropWhile Char.isWhitespace).reverse⟩

/-- Python `str.rstrip("/")`: drop trailing slashes. -/
def pyRstripSlash (s : String) : String :=
  ⟨(s.data.reverse.dropWhile (· = '/')).reverse⟩

/-- Python truthiness of an `os.getenv` result: `None` and `""` are falsy. -/
def envTruthy : Option String → Bool
  | none => false
  | some s => s ≠ ""

/-- Helper for `pySplitComma`: accumulate the current field (reversed). -/
def splitCommaAux : List Char → List Char → List String
  | [], acc => [⟨acc.reverse⟩]
  | c :: cs, acc =>
    if c = ',' then ⟨acc.reverse⟩ :: splitCommaAux cs []
    else splitCommaAux cs (c :: acc)

/-- Python `str.split(",")`: split at every comma; `"".split(",") == [""]`. -/
def pySplitComma (s : String) : List String := splitCommaAux s.data []

/-- Python `a or b` on two `os.getenv` results (falsy left operand falls through). -/
def pyOrEnv (a b : Option String) : Option String :=
  if envTruthy a then a else b

/-- Python `os.getenv(...) or default` for a mandatory-default string setting. -/
def pyOrDefault (a : Option String) (dflt : String) : String :=
  match pyOrEnv a (some dflt) with
  | some s => s
  | none => dflt

/-! ## Environment configuration (`src/main.py` lines 20-30) -/

/-- The environment variables `src/main.py` reads (`os.getenv`; `none` = unset). -/
structure Env where
  alpaca_api_key_id : Option String := none
  apca_api_key_id : Option String := none
  alpaca_api_secret_key : Option String := none
  apca_api_secret_key : Option String := none
  alpaca_base_url : Option String := none
  alpaca_data_feed : Option String := none
  sip_ws_url : Option String := none
  sip_symbols : Option String := none
deriving DecidableEq, Repr

/-- `ALPACA_KEY = os.getenv("ALPACA_API_KEY_ID") or os.getenv("APCA_API_KEY_ID")`. -/
def ALPACA_KEY (e : Env) : Option String :=
  pyOrEnv e.alpaca_api_key_id e.apca_api_key_id

/-- `ALPACA_SECRET = os.getenv("ALPACA_API_SECRET_KEY") or os.getenv("APCA_API_SECRET_KEY")`. -/
def ALPACA_SECRET (e : Env) : Option String :=
  pyOrEnv e.alpaca_api_secret_key e.apca_api_secret_key

/-- `ALPACA_BASE_URL = (os.getenv("ALPACA_BASE_URL") or "https://data.alpaca.markets").rstrip("/")`. -/
def ALPACA_BASE_URL (e : Env) : String :=
  pyRstripSlash (pyOrDefault e.alpaca_base_url "https://data.alpaca.markets")

/-- `ALPACA_DATA_FEED = (os.getenv("ALPACA_DATA_FEED") or "iex").lower()`. -/
def ALPACA_DATA_FEED (e : Env) : String :=
  pyLower (pyOrDefault e.alpaca_data_feed "iex")

/-- `SIP_SYMBOLS = os.getenv("SIP_SYMBOLS") or "SPY"`. -/
def SIP_SYMBOLS (e : Env) : String :=
  pyOrDefault e.sip_symbols "SPY"

/-- `SIP_SYMBOL_LIST = [s.strip().upper() for s in SIP_SYMBOLS.split(",") if s.strip()]`. -/
def SIP_SYMBOL_LIST (e : Env) : List String :=
  ((pySplitComma (SIP_SYMBOLS e)).filter (fun s => pyStrip s ≠ "")).map
    (fun s => pyUpper (pyStrip s))

/-- `symbols = SIP_SYMBOL_LIST or ["SPY"]` inside `sip_stream_loop` (empty list is falsy). -/
def loopSymbols (e : Env) : List String :=
  if SIP_SYMBOL_LIST e = [] then ["SPY"] else SIP_SYMBOL_LIST e

/-! ## Stream messages and the in-memory tick store (`src/main.py` lines 50-133)

JSON scalar values carried in stream-message fields.  `vnull` doubles as
Python `None`, which is what `msg.get(k)` returns for a missing key. -/

inductive Value where
  | vnull
  | vbool (b : Bool)
  | vnum (q : ℚ)
  | vstr (s : String)
deriving DecidableEq, Repr

/-- One entry beneath `data = json.loads(raw)` when `data` is a list:
either a JSON object (a Python dict, whose relevant fields are the ones the
loop reads plus the trade-size field `s` the vendor sends), or a non-dict
value, on which `msg.get` raises `AttributeError`. -/
inductive Msg where
  | obj (T S p s t bp ap : Value)
  | nonObj
deriving DecidableEq, Repr

/-- One websocket frame: `malformed` when `json.loads(raw)` raises or the
result is not a list (both paths skip the frame), else the decoded list. -/
inductive Frame where
  | malformed
  | batch (msgs : List Msg)
deriving DecidableEq, Repr

/-- Tick record stored in `latest[sym]`; a field is `none` until the first
message of its kind assigns it.  `updated_at` holds the `_now_iso()` value,
abstracted as a monotone clock reading. -/
structure Tick where
  last_trade_price : Option Value := none
  last_trade_time : Option Value := none
  bid_price : Option Value := none
  ask_price : Option Value := none
  quote_time : Option Value := none
  updated_at : Option Nat := none
deriving DecidableEq, Repr

instance : Inhabited Tick := ⟨{}⟩

/-- The `latest` dict: association list from symbol to tick. -/
def Store := List (String × Tick)
deriving DecidableEq, Repr

instance : Inhabited Store := ⟨([] : List (String × Tick))⟩

/-- Dict lookup `latest.get(sym)`. -/
def Store.find? : Store → String → Option Tick
  | [], _ => none
  | (k, v) :: rest, sym => if k = sym then some v else Store.find? rest sym

/-- Dict write `latest[sym] = tick` (update in place, else append). -/
def Store.set : Store → String → Tick → Store
  | [], sym, tick => [(sym, tick)]
  | (k, v) :: rest, sym, tick =>
      if k = sym then (k, tick) :: rest else (k, v) :: Store.set rest sym tick

/-- `latest.setdefault(sym, {})` followed by reading `latest[sym]`. -/
def Store.getOrEmpty (st : Store) (sym : String) : Tick :=
  (st.find? sym).getD {}

/-- `sym = (msg.get("S") or "").upper()`: `none` models the `AttributeError`
raised when the field is truthy but not a string. -/
def symOf : Value → Option String
  | .vnull => some ""
  | .vbool b => if b then none else some ""
  | .vnum q => if q = 0 then some "" else none
  | .vstr s => if s = "" then some "" else some (pyUpper s)

/-- Lines 113-117: overwrite the trade fields of `latest[sym]`. -/
def storeTrade (st : Store) (sym : String) (p t : Value) (now : Nat) : Store :=
  let cur := st.getOrEmpty sym
  st.set sym { cur with
    last_trade_price := some p
    last_trade_time := some t
    updated_at := some now }

/-- Lines 120-125: overwrite the quote fields of `latest[sym]`. -/
def storeQuote (st : Store) (sym : String) (bp ap t : Value) (now : Nat) : Store :=
  let cur := st.getOrEmpty sym
  st.set sym { cur with
    bid_price := some bp
    ask_price := some ap
    quote_time := some t
    updated_at := some now }

/-- Process one message of a batch (lines 106-125).  `none` models an
exception escaping to the frame-level `except` (non-dict message, or a
truthy non-string `S`); writes bump the `_now_iso` clock. -/
def procMsg (st : Store) (clock : Nat) : Msg → Option (Store × Nat)
  | .nonObj => none
  | .obj T S _p _s t bp ap =>
    match symOf S with
    | none => none
    | some sym =>
      if sym = "" then some (st, clock)
      else if T = .vstr "t" then some (storeTrade st sym _p t clock, clock + 1)
      else if T = .vstr "q" then some (storeQuote st sym bp ap t clock, clock + 1)
      else some (st, clock)

/-- Process the messages of one decoded list; an exception part-way leaves
the writes already made (in-place dict mutation) and drops the rest. -/
def procBatch (st : Store) (clock : Nat) : List Msg → Store × Nat
  | [] => (st, clock)
  | m :: rest =>
    match procMsg st clock m with
    | none => (st, clock)
    | some (st', clock') => procBatch st' clock' rest

/-- Process one raw frame (lines 100-129): malformed frames are skipped. -/
def procFrame (st : Store) (clock : Nat) : Frame → Store × Nat
  | .malformed => (st, clock)
  | .batch ms => procBatch st clock ms

/-- Process a finite sequence of frames received on one connection. -/
def procFrames (st : Store) (clock : Nat) : List Frame → Store × Nat
  | [] => (st, clock)
  | f :: fs =>
    let (st', clock') := procFrame st clock f
    procFrames st' clock' fs

/-! ## HTTP endpoints (`src/main.py` lines 146-214) -/

/-- `fastapi.HTTPException(status_code=..., detail=...)`. -/
structure HTTPException where
  status_code : Nat
  detail : String
deriving DecidableEq, Repr

/-- `GET /latest` response body (lines 169-173). -/
structure LatestResp where
  symbol : String
  latest : Option Tick
  note : String
deriving DecidableEq, Repr

/-- Handler `get_latest` (lines 163-173).  A FastAPI handler either raises
an `HTTPException` or returns its body with HTTP 200; this handler never
raises. -/
def get_latest (st : Store) (symbol : String) : Except HTTPException LatestResp :=
  let sym := pyUpper symbol
  .ok { symbol := sym
        latest := st.find? sym
        note := "If latest is null, SIP stream is not running or no messages received yet." }

/-- The outbound REST request `get_bars` builds (lines 192-204). -/
structure BarsRequest where
  url : String
  key_header : String
  secret_header : String
  timeframe : String
  limit : Nat
  feed : String
deriving DecidableEq, Repr

/-- Outcome of `r.json()`: the parsed body, or the message of the decode
exception it raises when the body is not JSON. -/
inductive JsonResult where
  | parsed (body : String)
  | decodeError (msg : String)
deriving DecidableEq, Repr

/-- What the single `client.get(...)` call comes back with: a response
(status, `.text`, and the outcome of `.json()`), or an exception before a
response exists (connect failure, timeout). -/
inductive VendorOutcome where
  | response (status : Nat) (text : String) (json : JsonResult)
  | netError (msg : String)
deriving DecidableEq, Repr

/-- `httpx.Response.raise_for_status` raises unless the status is 2xx. -/
def is2xx (status : Nat) : Bool := 200 ≤ status && status ≤ 299

/-- Handler `get_bars` (lines 176-214), with the vendor modelled as a
function from the built request to its outcome.  Also returns the list of
outbound requests actually made, to state the no-retry property. -/
def get_bars (e : Env) (symbol timeframe : String) (lim : Nat)
    (vendor : BarsRequest → VendorOutcome) :
    Except HTTPException String × List BarsRequest :=
  if ¬ (envTruthy (ALPACA_KEY e) && envTruthy (ALPACA_SECRET e)) then
    (.error ⟨500, "Missing Alpaca API keys in environment variables."⟩, [])
  else
    let sym := pyUpper symbol
    let url := ALPACA_BASE_URL e ++ "/v2/stocks/" ++ sym ++ "/bars"
    let req : BarsRequest :=
      { url := url
        key_header := (ALPACA_KEY e).getD ""
        secret_header := (ALPACA_SECRET e).getD ""
        timeframe := timeframe
        limit := lim
        feed := ALPACA_DATA_FEED e }
    match vendor req with
    | .netError m => (.error ⟨500, m⟩, [req])
    | .response status text json =>
      if is2xx status then
        match json with
        | .parsed j => (.ok j, [req])
        | .decodeError m => (.error ⟨500, m⟩, [req])
      else
        (.error ⟨status, text⟩, [req])

/-! ## The SIP connection loop (`src/main.py` lines 62-133)

`sip_stream_loop` never connects when a credential is missing (lines 67-69);
otherwise it loops forever: connect/auth/subscribe, read frames, and on any
exception sleep 3 seconds and retry. -/

/-- Whether `sip_stream_loop` proceeds past its credential guard. -/
def sipLoopStarts (e : Env) : Bool :=
  envTruthy (ALPACA_KEY e) && envTruthy (ALPACA_SECRET e)

/-- How the process reacts at startup to missing credentials: FastAPI keeps
serving; only the background task is affected.  `true` = HTTP server runs. -/
def serverRunsWithoutCreds : Bool := true

/-- One connection attempt, as the loop body experiences it:
either the connect/auth/subscribe phase raises, or a session streams some
frames and then ends — `abnormal = true` when the transport raised
(read error, reset, abnormal close), `false` when the message iterator
ended cleanly. -/
inductive Attempt where
  | connectFail (msg : String)
  | session (frames : List Frame) (abnormal : Bool)
deriving DecidableEq, Repr

/-- Observable actions of the loop body. -/
inductive Action where
  | connectA
  | sleepA (secs : Nat)
deriving DecidableEq, Repr

/-- How the `try` block of one `while True` iteration ended. -/
inductive SessionResult where
  | clean
  | raised
deriving DecidableEq, Repr

/-- Run one iteration's `try` block over an attempt. -/
def runSession (st : Store) (clock : Nat) : Attempt → Store × Nat × SessionResult
  | .connectFail _ => (st, clock, .raised)
  | .session frames abnormal =>
    let (st', clock') := procFrames st clock frames
    (st', clock', if abnormal then .raised else .clean)

/-- The `while True` loop over a finite prefix of attempts, recording the
actions it performs: every iteration opens with a connect; the `except`
branch sleeps 3 seconds before the next iteration. -/
def sipLoop (st : Store) (clock : Nat) : List Attempt → Store × Nat × List Action
  | [] => (st, clock, [])
  | a :: rest =>
    let (st', clock', res) := runSession st clock a
    let (st'', clock'', acts) := sipLoop st' clock' rest
    match res with
    | .clean => (st'', clock'', Action.connectA :: acts)
    | .raised => (st'', clock'', Action.connectA :: Action.sleepA 3 :: acts)

/-! ## Derived predicates used by the claims -/

/-- Keys of the `latest` dict. -/
def Store.keys : Store → List String
  | [] => []
  | (k, _) :: rest => k :: Store.keys rest

/-- Whether a message targets (writes or would write) the given store key. -/
def msgMentions (m : Msg) (k : String) : Bool :=
  match m with
  | .nonObj => false
  | .obj _ S _ _ _ _ _ => symOf S = some k

/-- Whether any message of a frame targets the given store key. -/
def frameMentions (f : Frame) (k : String) : Bool :=
  match f with
  | .malformed => false
  | .batch ms => ms.any (fun m => msgMentions m k)

/-- Whether processing a message writes to the store: it must be a dict,
its symbol must be a string that is truthy, and its type tag must be the
trade or quote tag. -/
def msgWrites (m : Msg) : Bool :=
  match m with
  | .nonObj => false
  | .obj T S _ _ _ _ _ =>
    match symOf S with
    | none => false
    | some sym => sym ≠ "" && (T = .vstr "t" || T = .vstr "q")

/-- A frame is inert when it is malformed, or none of its messages writes
(each is a non-dict, has a falsy symbol, or carries an unrecognized tag). -/
def inertFrame (f : Frame) : Bool :=
  match f with
  | .malformed => true
  | .batch ms => ms.all (fun m => ¬ msgWrites m)

/-- Whether a handler call produced an HTTP success rather than a raised
`HTTPException`. -/
def isOkResp {α : Type} (r : Except HTTPException α) : Bool :=
  match r with
  | .ok _ => true
  | .error _ => false

/-- Whether the `try` block of a loop iteration ended in its `except` arm. -/
def attemptRaises (a : Attempt) : Bool :=
  match a with
  | .connectFail _ => true
  | .session _ abnormal => abnormal

/-! ## Store lemmas -/

theorem find?_set_self (st : Store) (k : String) (v : Tick) :
    (st.set k v).find? k = some v := by
  induction st with
  | nil => simp [Store.set, Store.find?]
  | cons hd tl ih =>
    obtain ⟨k', v'⟩ := hd
    by_cases h : k' = k
    · simp [Store.set, Store.find?, h]
    · simp [Store.set, Store.find?, h, ih]

theorem find?_set_ne (st : Store) (k k' : String) (v : Tick) (h : k' ≠ k) :
    (st.set k v).find? k' = st.find? k' := by
  induction st with
  | nil => simp [Store.set, Store.find?, Ne.symm h]
  | cons hd tl ih =>
    obtain ⟨k0, v0⟩ := hd
    by_cases h0 : k0 = k
    · subst h0
      simp [Store.set, Store.find?, Ne.symm h]
    · simp only [Store.set, if_neg h0]
      by_cases h1 : k0 = k'
      · simp [Store.find?, h1]
      · simp [Store.find?, h1, ih]

theorem keys_set (st : Store) (k k' : String) (v : Tick)
    (h : k' ∈ (st.set k v).keys) : k' ∈ st.keys ∨ k' = k := by
  induction st with
  | nil =>
    simp [Store.set, Store.keys] at h
    exact Or.inr h
  | cons hd tl ih =>
    obtain ⟨k0, v0⟩ := hd
    by_cases h0 : k0 = k
    · subst h0
      simp only [Store.set, if_pos rfl, Store.keys, List.mem_cons] at h ⊢
      rcases h with h | h
      · exact Or.inr h
      · exact Or.inl (Or.inr h)
    · simp only [Store.set, if_neg h0, Store.keys, List.mem_cons] at h ⊢
      rcases h with h | h
      · exact Or.inl (Or.inl h)
      · rcases ih h with h' | h'
        · exact Or.inl (Or.inr h')
        · exact Or.inr h'

theorem storeTrade_find?_ne (st : Store) (sym k : String) (p t : Value) (n : Nat)
    (h : k ≠ sym) : (storeTrade st sym p t n).find? k = st.find? k :=
  find?_set_ne st sym k _ h

theorem storeQuote_find?_ne (st : Store) (sym k : String) (bp ap t : Value) (n : Nat)
    (h : k ≠ sym) : (storeQuote st sym bp ap t n).find? k = st.find? k :=
  find?_set_ne st sym k _ h

/-! ## Message-processing lemmas -/

theorem procMsg_find?_ne (st : Store) (clock : Nat) (m : Msg) (k : String)
    (hm : msgMentions m k = false) (st' : Store) (clock' : Nat)
    (h : procMsg st clock m = some (st', clock')) : st'.find? k = st.find? k := by
  cases m with
  | nonObj => simp [procMsg] at h
  | obj T S p s t bp ap =>
    simp only [procMsg] at h
    simp only [msgMentions, decide_eq_false_iff_not] at hm
    cases hS : symOf S with
    | none => rw [hS] at h; simp at h
    | some sym =>
      rw [hS] at h
      have hk : k ≠ sym := fun he => hm (by rw [hS, he])
      by_cases hempty : sym = ""
      · simp [hempty] at h
        obtain ⟨h1, h2⟩ := h
        rw [← h1]
      · simp only [if_neg hempty] at h
        by_cases ht : T = Value.vstr "t"
        · simp only [if_pos ht] at h
          obtain ⟨h1, h2⟩ := Prod.mk.injEq .. ▸ (Option.some.injEq .. ▸ h)
          rw [← h1]
          exact storeTrade_find?_ne st sym k p t clock hk
        · simp only [if_neg ht] at h
          by_cases hq : T = Value.vstr "q"
          · simp only [if_pos hq] at h
            obtain ⟨h1, h2⟩ := Prod.mk.injEq .. ▸ (Option.some.injEq .. ▸ h)
            rw [← h1]
            exact storeQuote_find?_ne st sym k bp ap t clock hk
          · simp only [if_neg hq] at h
            obtain ⟨h1, h2⟩ := Prod.mk.injEq .. ▸ (Option.some.injEq .. ▸ h)
            rw [← h1]

theorem procBatch_find?_ne (ms : List Msg) (st : Store) (clock : Nat) (k : String)
    (hm : ∀ m ∈ ms, msgMentions m k = false) :
    (procBatch st clock ms).1.find? k = st.find? k := by
  induction ms generalizing st clock with
  | nil => simp [procBatch]
  | cons m rest ih =>
    simp only [procBatch]
    cases hp : procMsg st clock m with
    | none => rfl
    | some res =>
      obtain ⟨st', clock'⟩ := res
      have h1 : st'.find? k = st.find? k :=
        procMsg_find?_ne st clock m k (hm m (by simp)) st' clock' hp
      have h2 := ih st' clock' (fun m' hm' => hm m' (by simp [hm']))
      simpa [h1] using h2

theorem procFrame_find?_ne (f : Frame) (st : Store) (clock : Nat) (k : String)
    (hm : frameMentions f k = false) :
    (procFrame st clock f).1.find? k = st.find? k := by
  cases f with
  | malformed => rfl
  | batch ms =>
    simp only [frameMentions, List.any_eq_false] at hm
    simpa [procFrame] using
      procBatch_find?_ne ms st clock k (fun m hmem => by simpa using hm m hmem)

theorem procFrames_find?_ne (fs : List Frame) (st : Store) (clock : Nat) (k : String)
    (hm : ∀ f ∈ fs, frameMentions f k = false) :
    (procFrames st clock fs).1.find? k = st.find? k := by
  induction fs generalizing st clock with
  | nil => simp [procFrames]
  | cons f rest ih =>
    simp only [procFrames]
    have h1 := procFrame_find?_ne f st clock k (hm f (by simp))
    have h2 := ih (procFrame st clock f).1 (procFrame st clock f).2
      (fun f' hf' => hm f' (by simp [hf']))
    simpa [h1] using h2

theorem procMsg_inert (st : Store) (clock : Nat) (m : Msg)
    (h : msgWrites m = false) :
    procMsg st clock m = none ∨ procMsg st clock m = some (st, clock) := by
  cases m with
  | nonObj => exact Or.inl rfl
  | obj T S p s t bp ap =>
    simp only [procMsg]
    cases hS : symOf S with
    | none => exact Or.inl rfl
    | some sym =>
      simp only [msgWrites, hS] at h
      by_cases hempty : sym = ""
      · simp [hempty]
      · simp only [if_neg hempty]
        simp only [Bool.and_eq_false_iff, Bool.or_eq_false_iff, decide_eq_false_iff_not,
          ne_eq, Decidable.not_not] at h
        rcases h with h | ⟨ht, hq⟩
        · exact absurd h hempty
        · rw [if_neg (by simpa using ht), if_neg (by simpa using hq)]
          exact Or.inr rfl

theorem procBatch_inert (ms : List Msg) (st : Store) (clock : Nat)
    (h : ∀ m ∈ ms, msgWrites m = false) :
    procBatch st clock ms = (st, clock) := by
  induction ms with
  | nil => rfl
  | cons m rest ih =>
    simp only [procBatch]
    rcases procMsg_inert st clock m (h m (by simp)) with hp | hp
    · rw [hp]
    · rw [hp]
      exact ih (fun m' hm' => h m' (by simp [hm']))

/-- An inert frame is a no-op on the store and the clock. -/
theorem procFrame_inert (f : Frame) (st : Store) (clock : Nat)
    (h : inertFrame f = true) : procFrame st clock f = (st, clock) := by
  cases f with
  | malformed => rfl
  | batch ms =>
    simp only [inertFrame, List.all_eq_true] at h
    exact procBatch_inert ms st clock (fun m hm => by simpa using h m hm)

/-! ## Uppercase-normalization lemmas -/

theorem pyUpper_empty_iff (s : String) : pyUpper s = "" ↔ s = "" := by
  obtain ⟨data⟩ := s
  constructor
  · intro h
    have : data.map pyUpperChar = [] := congrArg String.data h
    simp only [List.map_eq_nil_iff] at this
    rw [this]
  · intro h
    rw [h]
    rfl

/-- Any symbol `sym = (msg.get("S") or "").upper()` yields is a fixed point
of uppercasing. -/
theorem symOf_upper (S : Value) (sym : String) (h : symOf S = some sym) :
    pyUpper sym = sym := by
  cases S with
  | vnull =>
    simp only [symOf, Option.some.injEq] at h
    rw [← h]
    rfl
  | vbool b =>
    cases b with
    | true => simp [symOf] at h
    | false =>
      simp [symOf] at h
      subst h
      rfl
  | vnum q =>
    simp only [symOf] at h
    by_cases hq : q = 0
    · simp only [if_pos hq, Option.some.injEq] at h
      rw [← h]
      rfl
    · simp [if_neg hq] at h
  | vstr s =>
    simp only [symOf] at h
    by_cases hs : s = ""
    · simp only [if_pos hs, Option.some.injEq] at h
      rw [← h]
      rfl
    · simp only [if_neg hs, Option.some.injEq] at h
      rw [← h]
      exact pyUpper_idem s

theorem symOf_vstr (s : String) (hs : s ≠ "") :
    symOf (Value.vstr s) = some (pyUpper s) := by
  simp [symOf, hs]

theorem procMsg_keys (st : Store) (clock : Nat) (m : Msg) (st' : Store) (clock' : Nat)
    (h : procMsg st clock m = some (st', clock')) (k : String) (hk : k ∈ st'.keys) :
    k ∈ st.keys ∨ pyUpper k = k := by
  cases m with
  | nonObj => simp [procMsg] at h
  | obj T S p s t bp ap =>
    simp only [procMsg] at h
    cases hS : symOf S with
    | none => rw [hS] at h; simp at h
    | some sym =>
      rw [hS] at h
      by_cases hempty : sym = ""
      · simp only [if_pos hempty, Option.some.injEq, Prod.mk.injEq] at h
        rw [← h.1] at hk
        exact Or.inl hk
      · simp only [if_neg hempty] at h
        have hupper : pyUpper sym = sym := symOf_upper S sym hS
        by_cases ht : T = Value.vstr "t"
        · simp only [if_pos ht, Option.some.injEq, Prod.mk.injEq] at h
          rw [← h.1] at hk
          rcases keys_set st sym k _ hk with hmem | heq
          · exact Or.inl hmem
          · exact Or.inr (heq ▸ hupper)
        · simp only [if_neg ht] at h
          by_cases hq : T = Value.vstr "q"
          · simp only [if_pos hq, Option.some.injEq, Prod.mk.injEq] at h
            rw [← h.1] at hk
            rcases keys_set st sym k _ hk with hmem | heq
            · exact Or.inl hmem
            · exact Or.inr (heq ▸ hupper)
          · simp only [if_neg hq, Option.some.injEq, Prod.mk.injEq] at h
            rw [← h.1] at hk
            exact Or.inl hk

theorem procBatch_keys (ms : List Msg) (st : Store) (clock : Nat) (k : String)
    (hk : k ∈ (procBatch st clock ms).1.keys) : k ∈ st.keys ∨ pyUpper k = k := by
  induction ms generalizing st clock with
  | nil => exact Or.inl hk
  | cons m rest ih =>
    simp only [procBatch] at hk
    cases hp : procMsg st clock m with
    | none => rw [hp] at hk; exact Or.inl hk
    | some res =>
      obtain ⟨st', clock'⟩ := res
      rw [hp] at hk
      rcases ih st' clock' hk with hmem | hup
      · exact procMsg_keys st clock m st' clock' hp k hmem
      · exact Or.inr hup

theorem procFrames_keys (fs : List Frame) (st : Store) (clock : Nat) (k : String)
    (hk : k ∈ (procFrames st clock fs).1.keys) : k ∈ st.keys ∨ pyUpper k = k := by
  induction fs generalizing st clock with
  | nil => exact Or.inl hk
  | cons f rest ih =>
    simp only [procFrames] at hk
    rcases ih (procFrame st clock f).1 (procFrame st clock f).2 hk with hmem | hup
    · cases f with
      | malformed => exact Or.inl hmem
      | batch ms => exact procBatch_keys ms st clock k hmem
    · exact Or.inr hup

/-! ## Loop-trace lemmas -/

/-- The observable actions of one `while True` iteration. -/
def attemptActions (a : Attempt) : List Action :=
  Action.connectA :: (if attemptRaises a then [Action.sleepA 3] else [])

theorem sipLoop_trace (attempts : List Attempt) (st : Store) (clock : Nat) :
    (sipLoop st clock attempts).2.2 = attempts.flatMap attemptActions := by
  induction attempts generalizing st clock with
  | nil => rfl
  | cons a rest ih =>
    cases a with
    | connectFail m =>
      simp [sipLoop, runSession, attemptActions, attemptRaises, ih]
    | session frames abnormal =>
      cases abnormal with
      | true => simp [sipLoop, runSession, attemptActions, attemptRaises, ih]
      | false => simp [sipLoop, runSession, attemptActions, attemptRaises, ih]

/-! ## Claim theorems -/

/-- C6: For every symbol, processing a trade message after a quote message
leaves the previously-set quote fields (bid, ask, quote timestamp)
unchanged, and symmetrically a quote update does not clear previously-set
trade fields. -/
theorem cross_kind_field_independence (st : Store) (sym : String)
    (bp ap tq p tt : Value) (n1 n2 : Nat) :
    (((storeTrade (storeQuote st sym bp ap tq n1) sym p tt n2).find? sym).map Tick.bid_price
        = some (some bp)
      ∧ ((storeTrade (storeQuote st sym bp ap tq n1) sym p tt n2).find? sym).map Tick.ask_price
        = some (some ap)
      ∧ ((storeTrade (storeQuote st sym bp ap tq n1) sym p tt n2).find? sym).map Tick.quote_time
        = some (some tq))
    ∧ (((storeQuote (storeTrade st sym p tt n1) sym bp ap tq n2).find? sym).map Tick.last_trade_price
        = some (some p)
      ∧ ((storeQuote (storeTrade st sym p tt n1) sym bp ap tq n2).find? sym).map Tick.last_trade_time
        = some (some tt)) := by
  simp [storeTrade, storeQuote, Store.getOrEmpty, find?_set_self]

/-- C1 counterexample: with the default configuration, SymbolSet is
`["SPY"]`, yet a single trade message for AAPL — not in SymbolSet —
creates a Tick-store entry and GetLatest then returns it rather than
NotFound: `sip_stream_loop` never filters messages by `SIP_SYMBOL_LIST`. -/
theorem store_accepts_unsubscribed_symbol :
    ("AAPL" : String) ∉ SIP_SYMBOL_LIST {}
    ∧ (procFrame ([] : Store) 0
        (Frame.batch [Msg.obj (.vstr "t") (.vstr "AAPL") (.vnum 123) .vnull
          (.vstr "ts") .vnull .vnull])).1.find? "AAPL"
      = some { last_trade_price := some (.vnum 123), last_trade_time := some (.vstr "ts"),
               updated_at := some 0 }
    ∧ get_latest (procFrame ([] : Store) 0
        (Frame.batch [Msg.obj (.vstr "t") (.vstr "AAPL") (.vnum 123) .vnull
          (.vstr "ts") .vnull .vnull])).1 "AAPL"
      = .ok { symbol := "AAPL",
              latest := some { last_trade_price := some (.vnum 123),
                               last_trade_time := some (.vstr "ts"), updated_at := some 0 },
              note := "If latest is null, SIP stream is not running or no messages received yet." } :=
  ⟨by decide, by rfl, by rfl⟩

/-- C1 (amended): the Tick store has no entry — and GetLatest reports a
null tick — for every symbol that no processed stream message names; the
loop does not filter by SymbolSet, so stream traffic for an unsubscribed
symbol does create an entry (see the counterexample). -/
theorem unmentioned_symbol_never_stored (st : Store) (clock : Nat) (fs : List Frame)
    (sym : String) (h0 : st.find? (pyUpper sym) = none)
    (h : ∀ f ∈ fs, frameMentions f (pyUpper sym) = false) :
    (procFrames st clock fs).1.find? (pyUpper sym) = none
    ∧ get_latest (procFrames st clock fs).1 sym
      = .ok { symbol := pyUpper sym, latest := none,
              note := "If latest is null, SIP stream is not running or no messages received yet." } := by
  have hf := procFrames_find?_ne fs st clock (pyUpper sym) h
  constructor
  · rw [hf]
    exact h0
  · simp [get_latest, hf, h0]

/-- Witness for the amended C1 at a concrete input: a stream carrying only
an AAPL trade leaves no entry for SPY. -/
theorem unmentioned_symbol_never_stored_witness :
    (procFrames ([] : Store) 0
      [Frame.batch [Msg.obj (.vstr "t") (.vstr "AAPL") (.vnum 123) .vnull
        (.vstr "ts") .vnull .vnull]]).1.find? (pyUpper "SPY") = none :=
  (unmentioned_symbol_never_stored [] 0
    [Frame.batch [Msg.obj (.vstr "t") (.vstr "AAPL") (.vnum 123) .vnull
      (.vstr "ts") .vnull .vnull]] "SPY" (by decide) (by decide)).1

/-- C2 counterexample: with no credentials in the environment the process
does not abort: the stream loop's guard merely returns (the background task
never connects), the HTTP app keeps serving, and a GET /bars request is
answered with a per-request HTTP 500 — missing credentials are handled as
a recoverable per-request condition, contradicting the fail-fast claim. -/
theorem missing_creds_do_not_abort :
    sipLoopStarts {} = false
    ∧ serverRunsWithoutCreds = true
    ∧ (get_bars {} "SPY" "5Min" 10 (fun _ => .netError "unused")).1
      = .error { status_code := 500,
                 detail := "Missing Alpaca API keys in environment variables." }
    ∧ (get_bars {} "SPY" "5Min" 10 (fun _ => .netError "unused")).2 = [] :=
  ⟨rfl, rfl, rfl, rfl⟩

/-- C2 (amended): when either credential is absent or empty the process
still starts and serves HTTP; the SIP loop returns immediately without
connecting, and every GET /bars request fails per-request with HTTP 500
"Missing Alpaca API keys in environment variables" and no vendor call. -/
theorem missing_creds_recoverable_per_request (e : Env)
    (h : envTruthy (ALPACA_KEY e) = false ∨ envTruthy (ALPACA_SECRET e) = false) :
    sipLoopStarts e = false
    ∧ ∀ (symbol timeframe : String) (lim : Nat) (vendor : BarsRequest → VendorOutcome),
        get_bars e symbol timeframe lim vendor
          = (.error { status_code := 500,
                      detail := "Missing Alpaca API keys in environment variables." }, []) := by
  have hb : (envTruthy (ALPACA_KEY e) && envTruthy (ALPACA_SECRET e)) = false := by
    rcases h with h | h <;> simp [h]
  constructor
  · simpa [sipLoopStarts] using hb
  · intro symbol timeframe lim vendor
    simp [get_bars, hb]

/-- Witness for the amended C2 at the empty environment. -/
theorem missing_creds_recoverable_per_request_witness :
    sipLoopStarts {} = false
    ∧ get_bars {} "SPY" "5Min" 10 (fun _ => .netError "x")
      = (.error { status_code := 500,
                  detail := "Missing Alpaca API keys in environment variables." }, []) := by
  have h := missing_creds_recoverable_per_request {} (Or.inl (by decide))
  exact ⟨h.1, h.2 "SPY" "5Min" 10 _⟩

/-- The single outbound request `get_bars` builds when credentials are set. -/
def barsRequestOf (e : Env) (symbol timeframe : String) (lim : Nat) : BarsRequest :=
  { url := ALPACA_BASE_URL e ++ "/v2/stocks/" ++ pyUpper symbol ++ "/bars"
    key_header := (ALPACA_KEY e).getD ""
    secret_header := (ALPACA_SECRET e).getD ""
    timeframe := timeframe
    limit := lim
    feed := ALPACA_DATA_FEED e }

theorem get_bars_requests (e : Env) (symbol timeframe : String) (lim : Nat)
    (vendor : BarsRequest → VendorOutcome)
    (hk : envTruthy (ALPACA_KEY e) = true) (hs : envTruthy (ALPACA_SECRET e) = true) :
    (get_bars e symbol timeframe lim vendor).2 = [barsRequestOf e symbol timeframe lim] := by
  simp only [get_bars, hk, hs, Bool.and_self, not_true_eq_false, if_false]
  cases hv : vendor (barsRequestOf e symbol timeframe lim) with
  | netError m => simp [barsRequestOf] at hv ⊢; rw [hv]
  | response status text json =>
    simp only [barsRequestOf] at hv
    rw [hv]
    by_cases h2 : is2xx status
    · cases json with
      | parsed j => simp [h2, barsRequestOf]
      | decodeError m => simp [h2, barsRequestOf]
    · simp [h2, barsRequestOf]

/-- C3 counterexample: a GET /bars request for the futures root ES is
routed to the stocks/ETF path `/v2/stocks/ES/bars`, exactly like SPY —
`get_bars` builds one URL shape and has no futures-specific path. -/
theorem futures_symbol_uses_stocks_path :
    (get_bars { alpaca_api_key_id := some "k", alpaca_api_secret_key := some "s" }
        "ES" "5Min" 10 (fun _ => .response 200 "{}" (.parsed "{}"))).2.map BarsRequest.url
      = ["https://data.alpaca.markets/v2/stocks/ES/bars"]
    ∧ (get_bars { alpaca_api_key_id := some "k", alpaca_api_secret_key := some "s" }
        "SPY" "5Min" 10 (fun _ => .response 200 "{}" (.parsed "{}"))).2.map BarsRequest.url
      = ["https://data.alpaca.markets/v2/stocks/SPY/bars"] :=
  ⟨rfl, rfl⟩

/-- C3 (amended): every GET /bars request — futures root or not — issues
exactly one vendor call, to the stocks/ETF path
`{base}/v2/stocks/{SYMBOL}/bars`; no futures-specific routing exists. -/
theorem bars_always_stocks_path (e : Env) (symbol timeframe : String) (lim : Nat)
    (vendor : BarsRequest → VendorOutcome)
    (hk : envTruthy (ALPACA_KEY e) = true) (hs : envTruthy (ALPACA_SECRET e) = true) :
    (get_bars e symbol timeframe lim vendor).2.map BarsRequest.url
      = [ALPACA_BASE_URL e ++ "/v2/stocks/" ++ pyUpper symbol ++ "/bars"] := by
  rw [get_bars_requests e symbol timeframe lim vendor hk hs]
  rfl

/-- Witness for the amended C3 at a concrete input. -/
theorem bars_always_stocks_path_witness :
    (get_bars { alpaca_api_key_id := some "k", alpaca_api_secret_key := some "s" }
        "es" "1Min" 5 (fun _ => .netError "down")).2.map BarsRequest.url
      = [ALPACA_BASE_URL { alpaca_api_key_id := some "k", alpaca_api_secret_key := some "s" }
          ++ "/v2/stocks/" ++ pyUpper "es" ++ "/bars"] :=
  bars_always_stocks_path { alpaca_api_key_id := some "k", alpaca_api_secret_key := some "s" }
    "es" "1Min" 5 (fun _ => .netError "down") (by decide) (by decide)

/-- C4 counterexample: before any stream message, GET /latest?symbol=SPY
returns an HTTP-200 success body with `latest = null` — not a
404-equivalent error response; the fixed note text does not contain the
symbol (the symbol appears only as the echoed `symbol` field). -/
theorem latest_miss_returns_ok_not_404 :
    get_latest ([] : Store) "SPY"
      = .ok { symbol := "SPY", latest := none,
              note := "If latest is null, SIP stream is not running or no messages received yet." }
    ∧ isOkResp (get_latest ([] : Store) "SPY") = true :=
  ⟨rfl, rfl⟩

/-- C4 (amended): for a symbol with no received message, GET /latest
returns HTTP 200 with `latest = null` and a fixed explanatory note (the
response echoes the symbol in its `symbol` field, but the status is not a
404); once a trade message with a price has been processed for the symbol,
the same request returns that price. -/
theorem latest_miss_null_then_price :
    (∀ (st : Store) (sym : String), st.find? (pyUpper sym) = none →
      get_latest st sym
        = .ok { symbol := pyUpper sym, latest := none,
                note := "If latest is null, SIP stream is not running or no messages received yet." })
    ∧ ∀ (st : Store) (clock : Nat) (sym : String) (p sz t : Value), sym ≠ "" →
      get_latest (procFrame st clock
          (Frame.batch [Msg.obj (.vstr "t") (.vstr sym) p sz t .vnull .vnull])).1 sym
        = .ok { symbol := pyUpper sym,
                latest := some { Store.getOrEmpty st (pyUpper sym) with
                                 last_trade_price := some p,
                                 last_trade_time := some t,
                                 updated_at := some clock },
                note := "If latest is null, SIP stream is not running or no messages received yet." } := by
  constructor
  · intro st sym h0
    simp [get_latest, h0]
  · intro st clock sym p sz t hs
    have hne : pyUpper sym ≠ "" := fun hh => hs ((pyUpper_empty_iff sym).mp hh)
    simp only [procFrame, procBatch, procMsg, symOf_vstr sym hs, if_neg hne, if_pos rfl]
    simp [get_latest, storeTrade, find?_set_self]

/-- Witness for the amended C4: SPY misses on the empty store, then a
680.12 trade for SPY is returned by the same request. -/
theorem latest_miss_null_then_price_witness :
    get_latest ([] : Store) "SPY"
      = .ok { symbol := pyUpper "SPY", latest := none,
              note := "If latest is null, SIP stream is not running or no messages received yet." }
    ∧ get_latest (procFrame ([] : Store) 0
          (Frame.batch [Msg.obj (.vstr "t") (.vstr "SPY") (.vnum (68012/100 : ℚ)) .vnull
            (.vstr "ts") .vnull .vnull])).1 "SPY"
      = .ok { symbol := pyUpper "SPY",
              latest := some { Store.getOrEmpty ([] : Store) (pyUpper "SPY") with
                               last_trade_price := some (.vnum (68012/100 : ℚ)),
                               last_trade_time := some (.vstr "ts"),
                               updated_at := some 0 },
              note := "If latest is null, SIP stream is not running or no messages received yet." } :=
  ⟨latest_miss_null_then_price.1 [] "SPY" (by decide),
   latest_miss_null_then_price.2 [] 0 "SPY" (.vnum (68012/100 : ℚ)) .vnull (.vstr "ts")
     (by decide)⟩

/-- C5 counterexample: the trade handler never reads the vendor's
trade-size field; two trade messages identical except for their size
produce identical stores, and the stored Tick has no size field at all, so
GetLatest cannot reflect the last message's size. -/
theorem trade_size_not_stored :
    (Msg.obj (.vstr "t") (.vstr "SPY") (.vnum 1) (.vnum 100) (.vstr "ts") .vnull .vnull
      ≠ Msg.obj (.vstr "t") (.vstr "SPY") (.vnum 1) (.vnum 999) (.vstr "ts") .vnull .vnull)
    ∧ procFrame ([] : Store) 0
        (Frame.batch [Msg.obj (.vstr "t") (.vstr "SPY") (.vnum 1) (.vnum 100) (.vstr "ts") .vnull .vnull])
      = procFrame ([] : Store) 0
        (Frame.batch [Msg.obj (.vstr "t") (.vstr "SPY") (.vnum 1) (.vnum 999) (.vstr "ts") .vnull .vnull]) :=
  ⟨by decide, rfl⟩

/-- C5 (amended): after a finite nonempty sequence of trade messages for a
subscribed symbol, GetLatest reflects exactly the last message's price and
source timestamp — each later trade overwrites the earlier one's fields,
with no merging — but the trade size is not stored (see counterexample). -/
theorem last_trade_overwrites_price_time (st : Store) (clock : Nat) (sym : String)
    (hs : sym ≠ "") (trades : List (Value × Value × Value)) (hne : trades ≠ []) :
    ((procFrames st clock (trades.map (fun x =>
        Frame.batch [Msg.obj (.vstr "t") (.vstr sym) x.1 x.2.1 x.2.2 .vnull .vnull]))).1.find?
        (pyUpper sym)).map Tick.last_trade_price
      = some (some (trades.getLast hne).1)
    ∧ ((procFrames st clock (trades.map (fun x =>
        Frame.batch [Msg.obj (.vstr "t") (.vstr sym) x.1 x.2.1 x.2.2 .vnull .vnull]))).1.find?
        (pyUpper sym)).map Tick.last_trade_time
      = some (some (trades.getLast hne).2.2) := by
  have hup : pyUpper sym ≠ "" := fun hh => hs ((pyUpper_empty_iff sym).mp hh)
  induction trades generalizing st clock with
  | nil => exact absurd rfl hne
  | cons x rest ih =>
    cases rest with
    | nil =>
      simp only [List.map, procFrames, procFrame, procBatch, procMsg,
        symOf_vstr sym hs, if_neg hup, if_pos rfl, List.getLast]
      simp [storeTrade, find?_set_self]
    | cons y rest' =>
      have hne2 : y :: rest' ≠ [] := by simp
      have hstep : procFrame st clock
          (Frame.batch [Msg.obj (.vstr "t") (.vstr sym) x.1 x.2.1 x.2.2 .vnull .vnull])
          = (storeTrade st (pyUpper sym) x.1 x.2.2 clock, clock + 1) := by
        simp [procFrame, procBatch, procMsg, symOf_vstr sym hs, if_neg hup]
      simp only [List.map, procFrames, hstep]
      have := ih (storeTrade st (pyUpper sym) x.1 x.2.2 clock) (clock + 1) hne2
      rw [List.getLast_cons hne2]
      exact this

/-- Witness for the amended C5: two successive SPY trades; the second one's
price and timestamp are what GetLatest reflects. -/
theorem last_trade_overwrites_price_time_witness :
    ((procFrames ([] : Store) 0 ([((Value.vnum 1), (Value.vnum 100), (Value.vstr "t1")),
        ((Value.vnum 2), (Value.vnum 200), (Value.vstr "t2"))].map (fun x =>
        Frame.batch [Msg.obj (.vstr "t") (.vstr "SPY") x.1 x.2.1 x.2.2 .vnull .vnull]))).1.find?
        (pyUpper "SPY")).map Tick.last_trade_price
      = some (some (Value.vnum 2)) :=
  (last_trade_overwrites_price_time [] 0 "SPY" (by decide)
    [((Value.vnum 1), (Value.vnum 100), (Value.vstr "t1")),
     ((Value.vnum 2), (Value.vnum 200), (Value.vstr "t2"))] (by decide)).1

theorem procFrames_append (fs1 fs2 : List Frame) (st : Store) (clock : Nat) :
    procFrames st clock (fs1 ++ fs2)
      = procFrames (procFrames st clock fs1).1 (procFrames st clock fs1).2 fs2 := by
  induction fs1 generalizing st clock with
  | nil => rfl
  | cons f fs ih => simp [procFrames, ih]

/-- C7: a malformed or unrecognized stream message is dropped with no
state change: the store and the message clock are untouched, the session's
connection outcome is unchanged (deleting the frame from a session changes
nothing), and a concurrent GetLatest caller sees the same successful
response — no error is ever raised to it. -/
theorem inert_message_no_state_change (st : Store) (clock : Nat) (f : Frame)
    (h : inertFrame f = true) :
    procFrame st clock f = (st, clock)
    ∧ (∀ (fs1 fs2 : List Frame) (abnormal : Bool),
        runSession st clock (.session (fs1 ++ f :: fs2) abnormal)
          = runSession st clock (.session (fs1 ++ fs2) abnormal))
    ∧ ∀ sym, get_latest (procFrame st clock f).1 sym = get_latest st sym
        ∧ isOkResp (get_latest (procFrame st clock f).1 sym) = true := by
  refine ⟨procFrame_inert f st clock h, ?_, ?_⟩
  · intro fs1 fs2 abnormal
    have hmid : procFrames (procFrames st clock fs1).1 (procFrames st clock fs1).2 (f :: fs2)
        = procFrames (procFrames st clock fs1).1 (procFrames st clock fs1).2 fs2 := by
      simp [procFrames, procFrame_inert f _ _ h]
    simp [runSession, procFrames_append, hmid]
  · intro sym
    constructor
    · rw [procFrame_inert f st clock h]
    · rw [procFrame_inert f st clock h]
      rfl

/-- Witness for C7: a malformed frame and an unrecognized-tag message over
a store holding one SPY tick. -/
theorem inert_message_no_state_change_witness :
    procFrame [("SPY", ({ last_trade_price := some (.vnum 1) } : Tick))] 5 Frame.malformed
      = ([("SPY", ({ last_trade_price := some (.vnum 1) } : Tick))], 5)
    ∧ procFrame [("SPY", ({ last_trade_price := some (.vnum 1) } : Tick))] 5
        (Frame.batch [Msg.obj (.vstr "subscription") (.vstr "SPY") .vnull .vnull .vnull .vnull .vnull,
          Msg.nonObj])
      = ([("SPY", ({ last_trade_price := some (.vnum 1) } : Tick))], 5) :=
  ⟨(inert_message_no_state_change [("SPY", { last_trade_price := some (.vnum 1) })] 5
      Frame.malformed (by decide)).1,
   (inert_message_no_state_change [("SPY", { last_trade_price := some (.vnum 1) })] 5
      (Frame.batch [Msg.obj (.vstr "subscription") (.vstr "SPY") .vnull .vnull .vnull .vnull .vnull,
        Msg.nonObj]) (by decide)).1⟩

/-- C8: when the vendor REST call returns a non-2xx status, GET /bars
relays that same status code together with the vendor's body text, and the
handler makes exactly one outbound call — it never retries. -/
theorem non2xx_relayed_no_retry (e : Env) (symbol timeframe : String) (lim : Nat)
    (status : Nat) (text : String) (json : JsonResult)
    (hk : envTruthy (ALPACA_KEY e) = true) (hs : envTruthy (ALPACA_SECRET e) = true)
    (h2 : is2xx status = false) :
    (get_bars e symbol timeframe lim (fun _ => .response status text json)).1
      = .error { status_code := status, detail := text }
    ∧ (get_bars e symbol timeframe lim (fun _ => .response status text json)).2.length = 1 := by
  constructor
  · simp [get_bars, hk, hs, h2]
  · rw [get_bars_requests e symbol timeframe lim _ hk hs]
    rfl

/-- Witness for C8: a 403 with an error body is relayed as a 403 with that
body after exactly one call. -/
theorem non2xx_relayed_no_retry_witness :
    (get_bars { alpaca_api_key_id := some "k", alpaca_api_secret_key := some "s" }
        "SPY" "5Min" 10 (fun _ => .response 403 "forbidden" (.decodeError "not json"))).1
      = .error { status_code := 403, detail := "forbidden" }
    ∧ (get_bars { alpaca_api_key_id := some "k", alpaca_api_secret_key := some "s" }
        "SPY" "5Min" 10 (fun _ => .response 403 "forbidden" (.decodeError "not json"))).2.length = 1 :=
  non2xx_relayed_no_retry { alpaca_api_key_id := some "k", alpaca_api_secret_key := some "s" }
    "SPY" "5Min" 10 403 "forbidden" (.decodeError "not json") (by decide) (by decide) (by decide)

/-- C9: every transport-level error in the stream loop is caught and leads
to a fixed 3-second backoff: each loop iteration performs exactly one
connection attempt, every sleep in the action trace is exactly 3 seconds
and there are exactly as many sleeps as erroring iterations, the loop has
no terminal state (any further attempt extends the trace with a fresh
connect), and no error ever surfaces to an HTTP GetLatest caller. -/
theorem loop_backoff_retry_forever (st : Store) (clock : Nat) (attempts : List Attempt) :
    ((sipLoop st clock attempts).2.2.count Action.connectA = attempts.length)
    ∧ ((sipLoop st clock attempts).2.2.count (Action.sleepA 3)
        = (attempts.filter attemptRaises).length)
    ∧ (∀ n, Action.sleepA n ∈ (sipLoop st clock attempts).2.2 → n = 3)
    ∧ (∀ a, (sipLoop st clock (attempts ++ [a])).2.2
        = (sipLoop st clock attempts).2.2 ++ attemptActions a)
    ∧ ∀ sym, isOkResp (get_latest (sipLoop st clock attempts).1 sym) = true := by
  refine ⟨?_, ?_, ?_, ?_, ?_⟩
  · rw [sipLoop_trace]
    induction attempts with
    | nil => rfl
    | cons a rest ih =>
      by_cases hr : attemptRaises a
      · simp [attemptActions, hr, List.count_cons, ih]
      · simp [attemptActions, hr, List.count_cons, ih]
  · rw [sipLoop_trace]
    induction attempts with
    | nil => rfl
    | cons a rest ih =>
      by_cases hr : attemptRaises a
      · simp [attemptActions, hr, List.count_cons, List.filter_cons, ih]
      · simp [attemptActions, hr, List.count_cons, List.filter_cons, ih]
  · rw [sipLoop_trace]
    intro n hn
    rw [List.mem_flatMap] at hn
    obtain ⟨a, _, ha⟩ := hn
    unfold attemptActions at ha
    by_cases hr : attemptRaises a
    · rw [if_pos hr] at ha
      simpa using ha
    · rw [if_neg hr] at ha
      simp at ha
  · intro a
    rw [sipLoop_trace, sipLoop_trace, List.flatMap_append]
    simp
  · intro sym
    rfl

/-- C10: symbol handling is uniformly case-insensitive: every configured
subscription symbol and every key of a Tick store built from process start
is a fixed point of uppercasing, and GET /latest and GET /bars uppercase
their symbol query parameter, so a query with `s` and with `s` uppercased
return the same result. -/
theorem uniform_uppercase_symbol_handling :
    (∀ (e : Env), ∀ s ∈ SIP_SYMBOL_LIST e, pyUpper s = s)
    ∧ (∀ (fs : List Frame) (clock : Nat), ∀ k ∈ (procFrames ([] : Store) clock fs).1.keys,
        pyUpper k = k)
    ∧ (∀ (st : Store) (s : String), get_latest st s = get_latest st (pyUpper s))
    ∧ ∀ (e : Env) (s timeframe : String) (lim : Nat) (vendor : BarsRequest → VendorOutcome),
        get_bars e s timeframe lim vendor = get_bars e (pyUpper s) timeframe lim vendor := by
  refine ⟨?_, ?_, ?_, ?_⟩
  · intro e s hs
    simp only [SIP_SYMBOL_LIST, List.mem_map] at hs
    obtain ⟨x, _, hx⟩ := hs
    rw [← hx]
    exact pyUpper_idem (pyStrip x)
  · intro fs clock k hk
    rcases procFrames_keys fs [] clock k hk with hmem | hup
    · simp [Store.keys] at hmem
    · exact hup
  · intro st s
    simp [get_latest, pyUpper_idem]
  · intro e s timeframe lim vendor
    simp [get_bars, pyUpper_idem]

/-- Witness for C10 at concrete inputs: the default subscription symbol is
uppercase, and a lowercase /latest query is served like its uppercase form. -/
theorem uniform_uppercase_symbol_handling_witness :
    pyUpper "SPY" = "SPY"
    ∧ pyUpper "AAPL" = "AAPL"
    ∧ get_latest ([] : Store) "spy" = get_latest ([] : Store) (pyUpper "spy") :=
  ⟨uniform_uppercase_symbol_handling.1 {} "SPY" (by decide),
   uniform_uppercase_symbol_handling.2.1
     [Frame.batch [Msg.obj (.vstr "t") (.vstr "aapl") (.vnum 1) .vnull (.vstr "ts") .vnull .vnull]]
     0 "AAPL" (by decide),
   uniform_uppercase_symbol_handling.2.2.1 [] "spy"⟩

end AlpacaBridge
